import Mathlib

/-!
Shallow embedding of the reconciliation backend (`src/main.py`, `src/schemas.py`).

Modelling choices, in order of appearance in the source:

* Monetary amounts are embedded as exact rationals `ℚ`; Python's
  `round(x, 2)` becomes `round2` below (round to the nearest multiple of
  1/100).  The claims under study never depend on the tie-breaking mode of
  the rounding, only on rounded-value equality and on the fixed score
  constants 0.6 and 1.0, which are exact in `ℚ`.
* Records fetched from the document store are loosely typed dictionaries in
  the Python code (`inv.get("total", 0)` etc.); they are embedded as
  structures with `Option` fields, and the engine applies the same defaults
  (`Option.getD`) at exactly the places the source does.
* Dates cross the boundary as ISO-8601 calendar-date strings `YYYY-MM-DD`
  (spec section 6); `datetime.fromisoformat` becomes `parseDate`, a fallible
  parser validating month and day ranges (leap years included) and returning
  the day count of the proleptic Gregorian calendar relative to 1970-01-01
  (the standard civil-from-days computation), so that the `.days` difference
  of the source is integer subtraction here.  Parse failure is `none`,
  mirroring the `except` fallback to `None` in the source.
* The per-invoice candidate lookup (`txns_by_amount`, a `defaultdict` built
  in transaction input order, then `.get(inv_total, [])`) is embedded as
  `bucketOf`: the order-preserving filter of the transaction list by rounded
  amount, which is extensionally what the grouping-then-lookup computes.
* The Mongo-assigned `_id` of a stored transaction is embedded as an opaque
  required `String` field `id`; `str(best.get("_id"))` becomes `best.id`.
-/

def digitVal (c : Char) : Nat := c.toNat - 48

def isLeapYear (y : Nat) : Bool :=
  (y % 4 == 0 && y % 100 != 0) || y % 400 == 0

def daysInMonth (y m : Nat) : Nat :=
  if m == 2 then (if isLeapYear y then 29 else 28)
  else if m == 4 || m == 6 || m == 9 || m == 11 then 30
  else 31

/-- Day count of the proleptic Gregorian date `y-m-d` relative to 1970-01-01
(civil-from-days; only used for `y ≥ 1`). -/
def daysFromCivil (y m d : Nat) : Int :=
  let yy := if m ≤ 2 then y - 1 else y
  let era := yy / 400
  let yoe := yy % 400
  let mp := if 2 < m then m - 3 else m + 9
  let doy := (153 * mp + 2) / 5 + (d - 1)
  let doe := yoe * 365 + yoe / 4 - yoe / 100 + doy
  (era * 146097 + doe : Int) - 719468

/-- Embeds `datetime.fromisoformat` restricted to the `YYYY-MM-DD` calendar
dates the spec declares at the boundary: `none` models the `ValueError`
branch of the source, which the engine turns into a missing date. -/
def parseDate (s : String) : Option Int :=
  match s.toList with
  | [y1, y2, y3, y4, h1, m1, m2, h2, d1, d2] =>
    if y1.isDigit && y2.isDigit && y3.isDigit && y4.isDigit &&
        h1 == '-' && m1.isDigit && m2.isDigit && h2 == '-' &&
        d1.isDigit && d2.isDigit then
      let y := ((digitVal y1 * 10 + digitVal y2) * 10 + digitVal y3) * 10 + digitVal y4
      let m := digitVal m1 * 10 + digitVal m2
      let d := digitVal d1 * 10 + digitVal d2
      if 1 ≤ y && 1 ≤ m && m ≤ 12 && 1 ≤ d && d ≤ daysInMonth y m then
        some (daysFromCivil y m d)
      else none
    else none
  | _ => none

/-- Python `round(q, 2)` on exact rationals. -/
def round2 (q : ℚ) : ℚ := (round (q * 100) : ℤ) / 100

/-- An invoice document as the engine reads it (`invoice` collection);
fields the source accesses with `.get` are optional. -/
structure InvoiceRec where
  invoice_number : Option String
  total : Option ℚ
  invoice_date : Option String
deriving DecidableEq

/-- A bank-transaction document as the engine reads it (`banktransaction`
collection); `id` is the store-assigned `_id`. -/
structure TxnRec where
  id : String
  amount : Option ℚ
  date : Option String
deriving DecidableEq

/-- `MatchResult` of `src/main.py`. -/
structure MatchResult where
  invoice_number : String
  bank_transaction_id : String
  confidence : ℚ
  reason : Option String
deriving DecidableEq

/-- The candidate bucket for one rounded amount: the transactions whose
`amount` (default 0) rounds to `q`, in input order — extensionally the
`txns_by_amount.get(q, [])` lookup of the source. -/
def bucketOf (txns : List TxnRec) (q : ℚ) : List TxnRec :=
  txns.filter (fun t => decide (round2 (t.amount.getD 0) = q))

/-- Scoring of one candidate transaction against the parsed invoice date:
lines 145-154 of `src/main.py` (base 0.6, +0.4 within 7 days, and the three
reason strings). -/
def scoreTxn (invDate : Option Int) (t : TxnRec) : ℚ × String :=
  match invDate, t.date.bind parseDate with
  | some di, some dt =>
      let days := (dt - di).natAbs
      if days ≤ 7 then
        (6/10 + 4/10, "Amount matches and dates within " ++ toString days ++ " days")
      else
        (6/10, "Amount matches but dates " ++ toString days ++ " days apart")
  | _, _ => (6/10, "Amount matches")

/-- The candidate loop of lines 137-158: state is `(best, best_score,
reason)`; `reason` is reassigned on EVERY iteration, while `best` and
`best_score` only change on a strictly higher score — exactly as in the
source. -/
def scoreLoop (invDate : Option Int) :
    List TxnRec → Option TxnRec × ℚ × Option String → Option TxnRec × ℚ × Option String
  | [], acc => acc
  | t :: ts, (best, bestScore, _) =>
      let sr := scoreTxn invDate t
      if bestScore < sr.1 then scoreLoop invDate ts (some t, sr.1, some sr.2)
      else scoreLoop invDate ts (best, bestScore, some sr.2)

/-- The loop started from `best = None`, `best_score = -1.0`, `reason = None`
(lines 126-128). -/
def selectBest (invDate : Option Int) (cands : List TxnRec) :
    Option TxnRec × ℚ × Option String :=
  scoreLoop invDate cands (none, -1, none)

/-- One iteration of the invoice loop (lines 123-166): bucket lookup, date
parse, candidate scoring, and the conditional `results.append`. -/
def processInvoice (txns : List TxnRec) (inv : InvoiceRec) : Option MatchResult :=
  match selectBest (inv.invoice_date.bind parseDate)
      (bucketOf txns (round2 (inv.total.getD 0))) with
  | (some best, bestScore, reason) =>
      some { invoice_number := inv.invoice_number.getD ""
             bank_transaction_id := best.id
             confidence := round2 bestScore
             reason := reason }
  | (none, _, _) => none

/-- The matching engine `match_invoices_to_bank` (lines 110-166) as a pure
function of the two fetched record sequences: iterate invoices in order,
appending at most one result each. -/
def matchInvoicesToBank (invoices : List InvoiceRec) (txns : List TxnRec) :
    List MatchResult :=
  invoices.foldl
    (fun results inv =>
      match processInvoice txns inv with
      | some r => results ++ [r]
      | none => results)
    []

/-- The persistence loop plus response of lines 168-179, wrapped in the
endpoint's `try`/`except`.  Modelled from the spec: `create_document` lives
in `database.py`, which is not among the sources; per spec section 6 the
record store write "accepts a Match-shaped record for durable persistence,
returning an assigned identifier" and may fail, so it is taken as an
arbitrary fallible function.  A raised persistence error escapes the loop
and becomes the HTTP 500 response (`Except.error`), replacing the result
list, exactly as the source's `except` clause does. -/
def storeAll (persist : MatchResult → Except String String) :
    List MatchResult → Except String Unit
  | [] => Except.ok ()
  | r :: rs =>
      match persist r with
      | Except.ok _ => storeAll persist rs
      | Except.error e => Except.error e

/-- The `/match` endpoint body: compute the proposals, persist each, return
the list — or surface the first persistence failure as the error response. -/
def matchEndpoint (persist : MatchResult → Except String String)
    (invoices : List InvoiceRec) (txns : List TxnRec) :
    Except String (List MatchResult) :=
  let results := matchInvoicesToBank invoices txns
  match storeAll persist results with
  | Except.ok _ => Except.ok results
  | Except.error e => Except.error e

/-! ### General lemmas about the scoring loop and the engine -/

theorem scoreTxn_val (d : Option Int) (t : TxnRec) :
    (scoreTxn d t).1 = 6/10 ∨ (scoreTxn d t).1 = 1 := by
  unfold scoreTxn
  rcases d with _ | di <;> rcases h : t.date.bind parseDate with _ | dt <;>
    try exact Or.inl rfl
  dsimp only
  split
  · exact Or.inr (by norm_num)
  · exact Or.inl rfl

theorem scoreTxn_gt_neg_one (d : Option Int) (t : TxnRec) :
    (-1 : ℚ) < (scoreTxn d t).1 := by
  rcases scoreTxn_val d t with h | h <;> rw [h] <;> norm_num

theorem scoreLoop_nil (d : Option Int) (acc : Option TxnRec × ℚ × Option String) :
    scoreLoop d [] acc = acc := rfl

theorem scoreLoop_cons (d : Option Int) (t : TxnRec) (ts : List TxnRec)
    (best : Option TxnRec) (s : ℚ) (r : Option String) :
    scoreLoop d (t :: ts) (best, s, r) =
      if s < (scoreTxn d t).1 then scoreLoop d ts (some t, (scoreTxn d t).1, some (scoreTxn d t).2)
      else scoreLoop d ts (best, s, some (scoreTxn d t).2) := rfl

/-- Once the loop state holds a candidate, it holds one forever. -/
theorem scoreLoop_isSome (d : Option Int) (ts : List TxnRec) :
    ∀ (b : TxnRec) (s : ℚ) (r : Option String),
      ∃ b' s' r', scoreLoop d ts (some b, s, r) = (some b', s', r') := by
  induction ts with
  | nil => exact fun b s r => ⟨b, s, r, rfl⟩
  | cons t ts ih =>
    intro b s r
    rw [scoreLoop_cons]
    split
    · exact ih t _ _
    · exact ih b s _

/-- The selected candidate comes from the input state or from the list. -/
theorem scoreLoop_mem (d : Option Int) (ts : List TxnRec) :
    ∀ (acc : Option TxnRec × ℚ × Option String) (b' : TxnRec) (s' : ℚ) (r' : Option String),
      scoreLoop d ts acc = (some b', s', r') → acc.1 = some b' ∨ b' ∈ ts := by
  induction ts with
  | nil =>
    intro acc b' s' r' h
    rw [scoreLoop_nil] at h
    exact Or.inl (by rw [h])
  | cons t ts ih =>
    rintro ⟨best, s, r⟩ b' s' r' h
    rw [scoreLoop_cons] at h
    split at h
    · rcases ih _ _ _ _ h with h1 | h1
      · exact Or.inr (by simp at h1; simp [h1])
      · exact Or.inr (List.mem_cons_of_mem _ h1)
    · rcases ih _ _ _ _ h with h1 | h1
      · exact Or.inl h1
      · exact Or.inr (List.mem_cons_of_mem _ h1)

/-- The running score is always the score of the running candidate. -/
theorem scoreLoop_score (d : Option Int) (ts : List TxnRec) :
    ∀ (best : Option TxnRec) (s : ℚ) (r : Option String) (b' : TxnRec) (s' : ℚ) (r' : Option String),
      (∀ b, best = some b → s = (scoreTxn d b).1) →
      scoreLoop d ts (best, s, r) = (some b', s', r') → s' = (scoreTxn d b').1 := by
  induction ts with
  | nil =>
    intro best s r b' s' r' hacc h
    rw [scoreLoop_nil] at h
    injection h with h1 h2
    injection h2 with h2 h3
    rw [← h2]
    exact hacc b' h1
  | cons t ts ih =>
    intro best s r b' s' r' hacc h
    rw [scoreLoop_cons] at h
    split at h
    · exact ih _ _ _ _ _ _ (fun b hb => by rw [Option.some.injEq] at hb; rw [hb]) h
    · exact ih _ _ _ _ _ _ hacc h

/-- A running candidate whose score every remaining candidate fails to beat
strictly is kept (only the reason keeps moving): the first maximum wins. -/
theorem scoreLoop_keep (d : Option Int) (ts : List TxnRec) :
    ∀ (b : TxnRec) (s : ℚ) (r : Option String),
      (∀ t ∈ ts, (scoreTxn d t).1 ≤ s) →
      ∃ r', scoreLoop d ts (some b, s, r) = (some b, s, r') := by
  induction ts with
  | nil => exact fun b s r _ => ⟨r, rfl⟩
  | cons t ts ih =>
    intro b s r h
    rw [scoreLoop_cons, if_neg (not_lt.mpr (h t (List.mem_cons_self t ts)))]
    exact ih b s _ (fun t' ht' => h t' (List.mem_cons_of_mem _ ht'))

theorem bucketOf_mem {txns : List TxnRec} {q : ℚ} {b : TxnRec}
    (h : b ∈ bucketOf txns q) : b ∈ txns ∧ round2 (b.amount.getD 0) = q := by
  have := List.mem_filter.mp h
  exact ⟨this.1, of_decide_eq_true this.2⟩

theorem bucketOf_eq_nil {txns : List TxnRec} {q : ℚ}
    (h : ∀ t ∈ txns, round2 (t.amount.getD 0) ≠ q) : bucketOf txns q = [] :=
  List.filter_eq_nil_iff.mpr fun t ht => by
    simpa using h t ht

/-- Characterisation of a produced proposal: it is assembled from a selected
candidate of the invoice's bucket, with the selected score rounded. -/
theorem processInvoice_eq_some {txns : List TxnRec} {inv : InvoiceRec} {r : MatchResult}
    (h : processInvoice txns inv = some r) :
    ∃ best s reason,
      best ∈ bucketOf txns (round2 (inv.total.getD 0)) ∧
      selectBest (inv.invoice_date.bind parseDate)
          (bucketOf txns (round2 (inv.total.getD 0))) = (some best, s, reason) ∧
      (s = 6/10 ∨ s = 1) ∧
      r = ⟨inv.invoice_number.getD "", best.id, round2 s, reason⟩ := by
  unfold processInvoice at h
  rcases hsel : selectBest (inv.invoice_date.bind parseDate)
      (bucketOf txns (round2 (inv.total.getD 0))) with ⟨best?, s, reason⟩
  rcases best? with _ | best
  · rw [hsel] at h; exact absurd h (by simp)
  · rw [hsel] at h
    simp only [Option.some.injEq] at h
    have hsel' : scoreLoop (inv.invoice_date.bind parseDate)
        (bucketOf txns (round2 (inv.total.getD 0))) (none, -1, none) =
        (some best, s, reason) := hsel
    have hmem : best ∈ bucketOf txns (round2 (inv.total.getD 0)) := by
      rcases scoreLoop_mem _ _ _ _ _ _ hsel' with h1 | h1
      · exact absurd h1 (by simp)
      · exact h1
    have hscore : s = (scoreTxn (inv.invoice_date.bind parseDate) best).1 :=
      scoreLoop_score _ _ _ _ _ _ _ _ (fun b hb => by simp at hb) hsel'
    exact ⟨best, s, reason, hmem, rfl,
      hscore.symm ▸ scoreTxn_val (inv.invoice_date.bind parseDate) best, h.symm⟩

theorem processInvoice_isSome_iff (txns : List TxnRec) (inv : InvoiceRec) :
    (processInvoice txns inv).isSome = true ↔
      bucketOf txns (round2 (inv.total.getD 0)) ≠ [] := by
  unfold processInvoice
  rcases hb : bucketOf txns (round2 (inv.total.getD 0)) with _ | ⟨t, ts⟩
  · simp [selectBest, scoreLoop_nil]
  · have h1 : (-1 : ℚ) < (scoreTxn (inv.invoice_date.bind parseDate) t).1 :=
      scoreTxn_gt_neg_one _ t
    obtain ⟨b', s', r', h⟩ := scoreLoop_isSome (inv.invoice_date.bind parseDate) ts t
      (scoreTxn (inv.invoice_date.bind parseDate) t).1
      (some (scoreTxn (inv.invoice_date.bind parseDate) t).2)
    simp [selectBest, scoreLoop_cons, h1, h]

theorem length_filterMap_eq_countP {α β : Type} (f : α → Option β) (l : List α) :
    (l.filterMap f).length = l.countP (fun a => (f a).isSome) := by
  induction l with
  | nil => rfl
  | cons a l ih =>
    rw [List.filterMap_cons, List.countP_cons]
    rcases h : f a with _ | b <;> simp [h, ih]

theorem matchFold_eq (txns : List TxnRec) (invs : List InvoiceRec) :
    ∀ acc : List MatchResult,
      invs.foldl
        (fun results inv =>
          match processInvoice txns inv with
          | some r => results ++ [r]
          | none => results) acc
      = acc ++ invs.filterMap (processInvoice txns) := by
  induction invs with
  | nil => intro acc; simp
  | cons inv invs ih =>
    intro acc
    rw [List.foldl_cons, List.filterMap_cons]
    rcases h : processInvoice txns inv with _ | r
    · simp only [h, ih]
    · simp only [h, ih (acc ++ [r]), List.append_assoc, List.singleton_append]

/-- The engine is the in-order partial map of `processInvoice` over the
invoice sequence. -/
theorem matchInvoicesToBank_eq_filterMap (invs : List InvoiceRec) (txns : List TxnRec) :
    matchInvoicesToBank invs txns = invs.filterMap (processInvoice txns) := by
  unfold matchInvoicesToBank
  simpa using matchFold_eq txns invs []

theorem round2_six_tenths : round2 (6/10) = 6/10 := by norm_num [round2]

theorem round2_one : round2 1 = 1 := by norm_num [round2]

/-! ### Concrete fixtures (spec section 8, example scenarios) -/

/-- Invoice INV-1 of spec example scenario 1. -/
def invINV1 : InvoiceRec := ⟨some "INV-1", some 100, some "2024-01-01"⟩

/-- The matching transaction of spec example scenario 1 (2 days away). -/
def txnT1 : TxnRec := ⟨"t1", some 100, some "2024-01-03"⟩

/-- The matching transaction of spec example scenario 2 (31 days away). -/
def txnT2 : TxnRec := ⟨"t2", some 100, some "2024-02-01"⟩

/-- The proposal the engine produces for `invINV1` against `[txnT1]`. -/
def rINV1T1 : MatchResult := ⟨"INV-1", "t1", 1, some "Amount matches and dates within 2 days"⟩

/-- Spec example scenario 1, evaluated on the embedding. -/
theorem engine_single_eval : matchInvoicesToBank [invINV1] [txnT1] = [rINV1T1] := by
  have h1 : parseDate "2024-01-01" = some 19723 := by decide
  have h2 : parseDate "2024-01-03" = some 19725 := by decide
  have hs2 : "Amount matches and dates within " ++ toString (2 : ℕ) ++ " days" =
      "Amount matches and dates within 2 days" := by decide
  norm_num [matchInvoicesToBank, processInvoice, bucketOf, selectBest, scoreLoop,
    scoreTxn, round2, invINV1, txnT1, rINV1T1, h1, h2, hs2, List.filter]

example : parseDate "1970-01-01" = some 0 := by decide
example : parseDate "1970-01-03" = some 2 := by decide
example : parseDate "2024-02-30" = none := by decide
example : parseDate "not-a-date" = none := by decide

/-- A transaction 2 days after epoch, amount 100. -/
def txnEpoch : TxnRec := ⟨"t", some 100, some "1970-01-03"⟩

/-- A transaction 31 days after epoch, amount 100. -/
def txnFar : TxnRec := ⟨"t", some 100, some "1970-02-01"⟩

/-- Two transactions with identical amount and date but different ids. -/
def tieA : TxnRec := ⟨"tieA", some 100, some "1970-01-03"⟩

/-- Second element of the tie pair. -/
def tieB : TxnRec := ⟨"tieB", some 100, some "1970-01-03"⟩

/-! ### The claims -/

/-- C1: refuted by the code — at the input below (invoice INV-1 dated
2024-01-01, transactions t1 two days away and t2 thirty-one days away, all
with amount 100) the engine selects t1 (score 1.0) but attaches the reason
computed while scoring t2, the last candidate of the bucket, because lines
150/152 of `src/main.py` assign `reason` on every iteration while `best`
and `best_score` only move on a strictly higher score.  The returned reason
therefore describes a candidate other than the one whose id is in the
proposal, contradicting the stated property. -/
theorem c1_reason_describes_other_candidate :
    matchInvoicesToBank [invINV1] [txnT1, txnT2] =
      [⟨"INV-1", "t1", 1, some "Amount matches but dates 31 days apart"⟩] := by
  have h1 : parseDate "2024-01-01" = some 19723 := by decide
  have h2 : parseDate "2024-01-03" = some 19725 := by decide
  have h3 : parseDate "2024-02-01" = some 19754 := by decide
  have hs2 : "Amount matches and dates within " ++ toString (2 : ℕ) ++ " days" =
      "Amount matches and dates within 2 days" := by decide
  have hs31 : "Amount matches but dates " ++ toString (31 : ℕ) ++ " days apart" =
      "Amount matches but dates 31 days apart" := by decide
  norm_num [matchInvoicesToBank, processInvoice, bucketOf, selectBest, scoreLoop,
    scoreTxn, round2, invINV1, txnT1, txnT2, h1, h2, h3, hs2, hs31, List.filter]

/-- C2: every returned proposal is produced from an input invoice — the one
whose number the proposal carries — and pairs it with an input transaction
whose amount, rounded to 2 decimal places, equals THAT invoice's rounded
total: the bucket lookup is a hard filter, for all inputs. -/
theorem c2_amount_filter (invs : List InvoiceRec) (txns : List TxnRec) (r : MatchResult)
    (hr : r ∈ matchInvoicesToBank invs txns) :
    ∃ inv ∈ invs, processInvoice txns inv = some r ∧
      r.invoice_number = inv.invoice_number.getD "" ∧
      ∃ t ∈ txns,
        r.bank_transaction_id = t.id ∧
        round2 (t.amount.getD 0) = round2 (inv.total.getD 0) := by
  rw [matchInvoicesToBank_eq_filterMap] at hr
  rcases List.mem_filterMap.mp hr with ⟨inv, hinv, hpi⟩
  rcases processInvoice_eq_some hpi with ⟨best, s, reason, hmem, -, -, hr'⟩
  rcases bucketOf_mem hmem with ⟨htxn, hround⟩
  exact ⟨inv, hinv, hpi, by rw [hr'], best, htxn, by rw [hr'], hround⟩

/-- Witness for C2 at spec example scenario 1. -/
theorem c2_amount_filter_witness :
    ∃ inv ∈ [invINV1], processInvoice [txnT1] inv = some rINV1T1 ∧
      rINV1T1.invoice_number = inv.invoice_number.getD "" ∧
      ∃ t ∈ [txnT1],
        rINV1T1.bank_transaction_id = t.id ∧
        round2 (t.amount.getD 0) = round2 (inv.total.getD 0) :=
  c2_amount_filter [invINV1] [txnT1] rINV1T1
    (by rw [engine_single_eval]; exact List.mem_singleton.mpr rfl)

/-- C3: per-candidate scoring — with both dates parseable the score is 1
when the whole-day delta is at most 7 and 6/10 when it exceeds 7; with a
missing or unparseable date on either side the result is score 6/10 with
reason "Amount matches"; and spec example scenario 1 (invoice 2024-01-01,
transaction 2024-01-03, amounts 100) yields exactly one proposal with
confidence 1 and reason "Amount matches and dates within 2 days". -/
theorem c3_scoring :
    (∀ (t : TxnRec) (di dt : Int), t.date.bind parseDate = some dt →
        ((dt - di).natAbs ≤ 7 → (scoreTxn (some di) t).1 = 1) ∧
        (7 < (dt - di).natAbs → (scoreTxn (some di) t).1 = 6/10)) ∧
    (∀ (invDate : Option Int) (t : TxnRec),
        invDate = none ∨ t.date.bind parseDate = none →
        scoreTxn invDate t = (6/10, "Amount matches")) ∧
    matchInvoicesToBank [invINV1] [txnT1] = [rINV1T1] := by
  refine ⟨?_, ?_, engine_single_eval⟩
  · intro t di dt h
    constructor
    · intro hle
      norm_num [scoreTxn, h, hle]
    · intro hgt
      have hn : ¬((dt - di).natAbs ≤ 7) := not_le.mpr hgt
      norm_num [scoreTxn, h, hn]
  · rintro invDate t (h | h)
    · subst h
      rcases h2 : t.date.bind parseDate with _ | dt <;> simp [scoreTxn, h2]
    · rcases invDate with _ | di <;> simp [scoreTxn, h]

/-- Witness for C3 at concrete dates (2, 31 and missing days of delta). -/
theorem c3_scoring_witness :
    (scoreTxn (some 0) txnEpoch).1 = 1 ∧
    (scoreTxn (some 0) txnFar).1 = 6/10 ∧
    scoreTxn none txnEpoch = (6/10, "Amount matches") :=
  ⟨(c3_scoring.1 txnEpoch 0 2 (by decide)).1 (by decide),
   (c3_scoring.1 txnFar 0 31 (by decide)).2 (by decide),
   c3_scoring.2.1 none txnEpoch (Or.inl rfl)⟩

/-- C4: the amount bucket is an order-preserving subsequence of the input
transaction list, and when no later candidate scores strictly higher than
the first, the first candidate in bucket order is selected — so equal-score
ties go to the transaction appearing first in the input sequence. -/
theorem c4_tie_break :
    (∀ (txns : List TxnRec) (q : ℚ), (bucketOf txns q).Sublist txns) ∧
    (∀ (d : Option Int) (t0 : TxnRec) (ts : List TxnRec),
      (∀ t ∈ ts, (scoreTxn d t).1 ≤ (scoreTxn d t0).1) →
      (selectBest d (t0 :: ts)).1 = some t0) := by
  constructor
  · exact fun txns q => List.filter_sublist txns
  · intro d t0 ts h
    unfold selectBest
    rw [scoreLoop_cons, if_pos (scoreTxn_gt_neg_one d t0)]
    obtain ⟨r', hr'⟩ := scoreLoop_keep d ts t0 (scoreTxn d t0).1
      (some (scoreTxn d t0).2) h
    rw [hr']

/-- Witness for C4: two equal-amount, equal-date, equal-score transactions;
the first is selected. -/
theorem c4_tie_break_witness : (selectBest (some 0) [tieA, tieB]).1 = some tieA :=
  c4_tie_break.2 (some 0) tieA [tieB] (fun t ht => by
    have h1 : tieA.date.bind parseDate = some 2 := by decide
    have h2 : tieB.date.bind parseDate = some 2 := by decide
    rw [List.mem_singleton.mp ht]
    norm_num [scoreTxn, h1, h2])

/-- C5: the engine is exactly the in-order partial map of `processInvoice`
over the invoice input sequence — each invoice contributes at most one
proposal, in invoice-input order — and hence at most one proposal per
invoice in total. -/
theorem c5_one_proposal_per_invoice_in_order (invs : List InvoiceRec) (txns : List TxnRec) :
    matchInvoicesToBank invs txns = invs.filterMap (processInvoice txns) ∧
    (matchInvoicesToBank invs txns).length ≤ invs.length := by
  refine ⟨matchInvoicesToBank_eq_filterMap invs txns, ?_⟩
  rw [matchInvoicesToBank_eq_filterMap]
  exact List.length_filterMap_le _ _

/-- C6: every returned confidence is the rounded value of a pre-rounding
score that is exactly 6/10 or 1, and lies in [0, 1]. -/
theorem c6_confidence (invs : List InvoiceRec) (txns : List TxnRec) (r : MatchResult)
    (hr : r ∈ matchInvoicesToBank invs txns) :
    (∃ s, (s = 6/10 ∨ s = 1) ∧ r.confidence = round2 s) ∧
    (r.confidence = 6/10 ∨ r.confidence = 1) ∧
    0 ≤ r.confidence ∧ r.confidence ≤ 1 := by
  rw [matchInvoicesToBank_eq_filterMap] at hr
  rcases List.mem_filterMap.mp hr with ⟨inv, hinv, hpi⟩
  rcases processInvoice_eq_some hpi with ⟨best, s, reason, -, -, hs, hr'⟩
  have hconf : r.confidence = round2 s := by rw [hr']
  have hval : r.confidence = 6/10 ∨ r.confidence = 1 := by
    rcases hs with h | h
    · exact Or.inl (by rw [hconf, h, round2_six_tenths])
    · exact Or.inr (by rw [hconf, h, round2_one])
  refine ⟨⟨s, hs, hconf⟩, hval, ?_, ?_⟩
  · rcases hval with h | h <;> norm_num [h]
  · rcases hval with h | h <;> norm_num [h]

/-- Witness for C6 at spec example scenario 1. -/
theorem c6_confidence_witness :
    (∃ s, (s = 6/10 ∨ s = 1) ∧ rINV1T1.confidence = round2 s) ∧
    (rINV1T1.confidence = 6/10 ∨ rINV1T1.confidence = 1) ∧
    0 ≤ rINV1T1.confidence ∧ rINV1T1.confidence ≤ 1 :=
  c6_confidence [invINV1] [txnT1] rINV1T1
    (by rw [engine_single_eval]; exact List.mem_singleton.mpr rfl)

/-- C7: an invoice whose rounded total matches no transaction's rounded
amount yields no proposal and no error — the engine's output is literally
the output on the other invoices, which are still processed. -/
theorem c7_no_candidate_silent (invs1 invs2 : List InvoiceRec) (inv : InvoiceRec)
    (txns : List TxnRec)
    (h : ∀ t ∈ txns, round2 (t.amount.getD 0) ≠ round2 (inv.total.getD 0)) :
    processInvoice txns inv = none ∧
    matchInvoicesToBank (invs1 ++ inv :: invs2) txns =
      matchInvoicesToBank invs1 txns ++ matchInvoicesToBank invs2 txns := by
  have hb : bucketOf txns (round2 (inv.total.getD 0)) = [] := bucketOf_eq_nil h
  have hnone : processInvoice txns inv = none := by
    unfold processInvoice
    rw [hb]
    rfl
  refine ⟨hnone, ?_⟩
  rw [matchInvoicesToBank_eq_filterMap, matchInvoicesToBank_eq_filterMap,
    matchInvoicesToBank_eq_filterMap]
  simp [List.filterMap_append, List.filterMap_cons, hnone]

/-- A transaction whose rounded amount (50) differs from INV-1's total. -/
def txnFifty : TxnRec := ⟨"t50", some 50, some "1970-01-01"⟩

/-- Witness for C7: amount 50 never matches total 100. -/
theorem c7_no_candidate_silent_witness :
    processInvoice [txnFifty] invINV1 = none ∧
    matchInvoicesToBank ([] ++ invINV1 :: []) [txnFifty] =
      matchInvoicesToBank [] [txnFifty] ++ matchInvoicesToBank [] [txnFifty] :=
  c7_no_candidate_silent [] [] invINV1 [txnFifty] (fun t ht => by
    rw [List.mem_singleton.mp ht]
    show round2 ((50 : ℚ)) ≠ round2 ((100 : ℚ))
    norm_num [round2])

/-- The failing record-store write used to refute C8. -/
def failPersist : MatchResult → Except String String :=
  fun _ => Except.error "store unavailable"

/-- C8 counterexample: when persisting fails, the endpoint surfaces the
failure, but the caller does NOT receive the already-computed proposal
sequence — the error response replaces it (the persistence loop sits inside
the endpoint's `try`, so the raised error aborts before `return results`). -/
theorem c8_counterexample :
    matchInvoicesToBank [invINV1] [txnT1] = [rINV1T1] ∧
    matchEndpoint failPersist [invINV1] [txnT1] = Except.error "store unavailable" ∧
    matchEndpoint failPersist [invINV1] [txnT1] ≠
      Except.ok (matchInvoicesToBank [invINV1] [txnT1]) := by
  have herr : matchEndpoint failPersist [invINV1] [txnT1] =
      Except.error "store unavailable" := by
    simp only [matchEndpoint, engine_single_eval]
    rfl
  refine ⟨engine_single_eval, herr, ?_⟩
  rw [herr]
  exact fun hcontra => Except.noConfusion hcontra

/-- C8 amended: a persistence failure is surfaced to the caller as a
distinct failure carrying the store's error, and the proposal computation
itself is untouched by persistence (it does not mention the store) — but
the computed proposals are not returned alongside the failure. -/
theorem c8_failure_surfaced (persist : MatchResult → Except String String)
    (invs : List InvoiceRec) (txns : List TxnRec) (e : String)
    (h : storeAll persist (matchInvoicesToBank invs txns) = Except.error e) :
    matchEndpoint persist invs txns = Except.error e := by
  simp only [matchEndpoint, h]

/-- Witness for the amended C8. -/
theorem c8_failure_surfaced_witness :
    matchEndpoint failPersist [invINV1] [txnT1] = Except.error "store unavailable" :=
  c8_failure_surfaced failPersist [invINV1] [txnT1] "store unavailable"
    (by rw [engine_single_eval]; rfl)

/-- C9: the engine is a pure function of the two input sequences — two runs
on identical inputs give identical outputs (the embedding takes no clock,
randomness or other state). -/
theorem c9_deterministic (invs invs' : List InvoiceRec) (txns txns' : List TxnRec)
    (h1 : invs = invs') (h2 : txns = txns') :
    matchInvoicesToBank invs txns = matchInvoicesToBank invs' txns' := by
  rw [h1, h2]

/-- Witness for C9 at spec example scenario 1. -/
theorem c9_deterministic_witness :
    matchInvoicesToBank [invINV1] [txnT1] = matchInvoicesToBank [invINV1] [txnT1] :=
  c9_deterministic [invINV1] [invINV1] [txnT1] [txnT1] rfl rfl

/-- Bool form of `processInvoice_isSome_iff`. -/
theorem processInvoice_isSome_eq (txns : List TxnRec) (inv : InvoiceRec) :
    (processInvoice txns inv).isSome =
      !(bucketOf txns (round2 (inv.total.getD 0))).isEmpty := by
  rcases hcase : bucketOf txns (round2 (inv.total.getD 0)) with _ | ⟨t, ts⟩
  · have h1 : processInvoice txns inv = none := by
      unfold processInvoice
      rw [hcase]
      rfl
    rw [h1]
    rfl
  · have h2 : (processInvoice txns inv).isSome = true :=
      (processInvoice_isSome_iff txns inv).mpr
        (by rw [hcase]; exact List.cons_ne_nil t ts)
    rw [h2]
    rfl

/-- C10: a proposal is produced for an invoice exactly when its candidate
bucket is non-empty (every candidate beats the -1 sentinel), and the number
of proposals equals the number of invoices with a non-empty bucket. -/
theorem c10_proposal_iff_nonempty_bucket (txns : List TxnRec) (inv : InvoiceRec) :
    ((processInvoice txns inv).isSome = true ↔
      bucketOf txns (round2 (inv.total.getD 0)) ≠ []) ∧
    ∀ invs : List InvoiceRec,
      (matchInvoicesToBank invs txns).length =
        (invs.filter
          (fun i => !(bucketOf txns (round2 (i.total.getD 0))).isEmpty)).length := by
  refine ⟨processInvoice_isSome_iff txns inv, ?_⟩
  intro invs
  rw [matchInvoicesToBank_eq_filterMap, length_filterMap_eq_countP,
    ← List.countP_eq_length_filter]
  exact List.countP_congr (fun i _ => by rw [processInvoice_isSome_eq])

/-- Witness for C10 at spec example scenario 1. -/
theorem c10_proposal_iff_nonempty_bucket_witness :
    (processInvoice [txnT1] invINV1).isSome = true :=
  (c10_proposal_iff_nonempty_bucket [txnT1] invINV1).1.mpr (by
    simp [bucketOf, invINV1, txnT1, List.filter])
